import Mathlib

/-!
# Verification of `health-go` (package `health`, file `src/health.go`)

Shallow embedding of the health-check service in Lean 4.

Modelling conventions:
* Go strings are `String`; the Go type `Status` is `type Status string`, so it is a
  `String` abbreviation here (`health.go:42`).
* Go maps are modelled as association lists (`List (key × value)`); the handler builds
  its `details` map starting from the empty map and only ever assigns via
  `m[k] = append(m[k], ds...)`, so the association lists built here have no duplicate
  keys and first-match lookup coincides with Go map lookup.  Go's `encoding/json`
  sorts map keys on marshalling; the association list abstracts the map up to that
  key permutation (lookup results are what the theorems state).
* JSON documents are the inductive `Json` tree: serialization is modelled from a Go
  value to the JSON tree (text encoding is abstracted away), deserialization from the
  tree back, following `encoding/json` semantics for the struct tags in `health.go`
  (`omitempty` omits zero values: empty strings, empty slices/maps, nil interfaces;
  a JSON `null` unmarshals as a no-op, leaving the zero value).
* The external constants `header.ContentType` and `mimetype.ApplicationHealthJson`
  (from the `nelkinda/http-go` dependency, not part of this repository) are the
  strings "Content-Type" and "application/health+json".
* The handler (`health.go:196-218`) is a function from the service state and the
  request to the new service state (the Go code mutates `h.template` through the
  pointer receiver), the written response, and instrumentation traces recording
  which providers' `HealthDetails` / `AuthorizeHealth` methods the executed branch
  invokes (indices into `detailsProviders`, in invocation order).
-/

/-- Go: `type Status string` (`health.go:42`). -/
abbrev Status := String

/-- Go: `const Pass Status = "pass"` (`health.go:172`). -/
def Pass : Status := "pass"

/-- Go: `const Fail Status = "fail"` (`health.go:175`). -/
def Fail : Status := "fail"

/-- Go: `const Warn Status = "warn"` (`health.go:178`). -/
def Warn : Status := "warn"

/-- A JSON document tree (the generic value space of `encoding/json`). -/
inductive Json where
  | null : Json
  | bool (b : Bool) : Json
  | num (n : Int) : Json
  | str (s : String) : Json
  | arr (elems : List Json) : Json
  | obj (fields : List (String × Json)) : Json

/-- Go struct `Details` (`health.go:126-168`).  Optional string fields have the Go
zero value `""` when absent; `ObservedValue interface\x7b\x7d` is `Option Json`
(`none` = nil interface); `Links map[string]string` is an association list
(`[]` = nil/empty map).  Field `Status` carries the json tag `"status"` without
`omitempty`; all other fields have `omitempty`. -/
structure Details where
  componentID : String
  componentType : String
  observedValue : Option Json
  observedUnit : String
  status : Status
  time : String
  output : String
  links : List (String × String)

/-- Go struct `Health` (`health.go:47-102`).  `Details map[string][]Details` is an
association list from key to entry list.  Field `Status` has tag `"status"` without
`omitempty`; every other field has `omitempty`. -/
structure Health where
  status : Status
  version : String
  releaseID : String
  notes : List String
  output : String
  details : List (String × List Details)
  links : List (String × String)
  serviceID : String
  description : String

/-- The association-list image of a Go `map[string][]Details`. -/
abbrev DetailsMap := List (String × List Details)

/-- Go `_, ok := m[k]` membership test for the association-list map. -/
def containsKey (m : DetailsMap) (k : String) : Bool :=
  m.any (fun p => p.1 = k)

/-- Go `m[k]` read: the value of the (first) binding of `k`, or the zero value
`nil` (here `[]`) when `k` is absent — Go's indexing of a missing key. -/
def goIndex (m : DetailsMap) (k : String) : List Details :=
  match m with
  | [] => []
  | (k', v) :: rest => if k' = k then v else goIndex rest k

/-- Go `m[k] = v` write: replace the (first) binding of `k`, or append a new
binding when `k` is absent. -/
def mapSet (m : DetailsMap) (k : String) (v : List Details) : DetailsMap :=
  match m with
  | [] => [(k, v)]
  | (k', v') :: rest => if k' = k then (k, v) :: rest else (k', v') :: mapSet rest k v

/-- One loop body iteration of the merge (`health.go:214`):
`h.template.Details[detailsKey] = append(h.template.Details[detailsKey], details...)`. -/
def appendEntries (m : DetailsMap) (k : String) (ds : List Details) : DetailsMap :=
  mapSet m k (goIndex m k ++ ds)

/-- The inner loop of the merge (`health.go:213-215`): fold one provider's
returned map into the accumulator, key by key. -/
def mergeProvider (m : DetailsMap) (pm : DetailsMap) : DetailsMap :=
  pm.foldl (fun acc p => appendEntries acc p.1 p.2) m

/-- The full merge (`health.go:210-216`): start from `make(map[string][]Details)`
and fold every provider's `HealthDetails()` result in registration order. -/
def mergeAll (pms : List DetailsMap) : DetailsMap :=
  pms.foldl mergeProvider []

/-- The entries a single provider's returned map contributes for key `k`
(for a Go map this is its unique binding of `k`, or `[]` when absent). -/
def entriesFor (pm : DetailsMap) (k : String) : List Details :=
  ((pm.filter (fun p => p.1 = k)).map (fun p => p.2)).flatten

/-- Go interface `DetailsProvider` (`health.go:182-188`): one request observes one
`HealthDetails()` return value; `AuthorizeHealth` is a predicate on the request. -/
structure Request where
  method : String

structure DetailsProvider where
  healthDetails : DetailsMap
  authorizeHealth : Request → Bool

/-- Go struct `Service` (`health.go:221-226`). -/
structure Service where
  detailsProviders : List DetailsProvider
  template : Health

/-- Go `func New` (`health.go:229-231`). -/
def New (template : Health) (detailsProviders : List DetailsProvider) : Service :=
  { detailsProviders := detailsProviders, template := template }

/-- The response the handler writes: status code, headers in the order they are
set, and the body (`none` = no body bytes written). -/
structure Response where
  statusCode : Nat
  headers : List (String × String)
  body : Option Json

/-- Result of one handler invocation: the post-state of the service (the Go code
mutates `h.template` through the pointer receiver), the response, and traces of
which providers' `HealthDetails` / `AuthorizeHealth` were invoked. -/
structure HandlerResult where
  service : Service
  response : Response
  healthDetailsCalls : List Nat
  authorizeHealthCalls : List Nat

/-- An optional JSON object field: present or omitted. -/
def optField (name : String) (v : Option Json) : List (String × Json) :=
  match v with
  | none => []
  | some j => [(name, j)]

/-- Serialization of a string field with `omitempty`: omitted when `""`. -/
def stringField (name : String) (v : String) : List (String × Json) :=
  optField name (if v = "" then none else some (Json.str v))

/-- Serialization of a `map[string]string` field with `omitempty`: omitted when
nil/empty. -/
def linksField (name : String) (l : List (String × String)) : List (String × Json) :=
  optField name (match l with
    | [] => none
    | _ => some (Json.obj (l.map (fun p => (p.1, Json.str p.2)))))

/-- Serialization of `ObservedValue interface\x7b\x7d` with `omitempty`: omitted
when the interface is nil. -/
def observedField (v : Option Json) : List (String × Json) :=
  optField "observedValue" v

/-- The field list of a marshalled `Details` entry, in struct order
(`health.go:126-168`).  `Status` has no `omitempty` and is always emitted. -/
def detailsFields (d : Details) : List (String × Json) :=
  stringField "componentId" d.componentID
    ++ stringField "componentType" d.componentType
    ++ observedField d.observedValue
    ++ stringField "observedUnit" d.observedUnit
    ++ [("status", Json.str d.status)]
    ++ stringField "time" d.time
    ++ stringField "output" d.output
    ++ linksField "links" d.links

/-- `encoding/json` marshalling of one `Details` entry. -/
def detailsToJson (d : Details) : Json :=
  Json.obj (detailsFields d)

/-- `encoding/json` marshalling of a `[]Details` slice value inside the `details`
map: a nil slice (the merged value for a key whose total contribution is empty,
since `append(nil)` of no elements is nil) marshals to `null`. -/
def entriesToJson (l : List Details) : Json :=
  match l with
  | [] => Json.null
  | _ => Json.arr (l.map detailsToJson)

/-- Serialization of the `Details map[string][]Details` field with `omitempty`:
omitted when the map is empty (`len == 0`, whether nil or freshly made). -/
def detailsMapField (m : DetailsMap) : List (String × Json) :=
  optField "details" (match m with
    | [] => none
    | _ => some (Json.obj (m.map (fun p => (p.1, entriesToJson p.2)))))

/-- Serialization of the `Notes []string` field with `omitempty`. -/
def notesField (notes : List String) : List (String × Json) :=
  optField "notes" (match notes with
    | [] => none
    | _ => some (Json.arr (notes.map Json.str)))

/-- `encoding/json` marshalling of `Health`, fields in struct order
(`health.go:47-102`).  `Status` has no `omitempty` and is always emitted. -/
def healthFields (h : Health) : List (String × Json) :=
  [("status", Json.str h.status)]
    ++ stringField "version" h.version
    ++ stringField "releaseId" h.releaseID
    ++ notesField h.notes
    ++ stringField "output" h.output
    ++ detailsMapField h.details
    ++ linksField "links" h.links
    ++ stringField "serviceId" h.serviceID
    ++ stringField "description" h.description

def healthToJson (h : Health) : Json :=
  Json.obj (healthFields h)

/-- Go `func (h *Service) Handler(w, r)` (`health.go:196-218`). -/
def Handler (s : Service) (r : Request) : HandlerResult :=
  let ct := [("Content-Type", "application/health+json")]
  if r.method = "OPTIONS" then
    { service := s
      response :=
        { statusCode := 200
          headers := ct ++ [("Allow", "OPTIONS, GET, HEAD"), ("Cache-Control", "max-age=604800")]
          body := none }
      healthDetailsCalls := []
      authorizeHealthCalls := [] }
  else if r.method ≠ "GET" ∧ r.method ≠ "HEAD" then
    { service := s
      response := { statusCode := 405, headers := ct, body := none }
      healthDetailsCalls := []
      authorizeHealthCalls := [] }
  else
    let merged := mergeAll (s.detailsProviders.map (fun p => p.healthDetails))
    let t := { s.template with status := Pass, details := merged }
    { service := { s with template := t }
      response := { statusCode := 200, headers := ct, body := some (healthToJson t) }
      healthDetailsCalls := List.range s.detailsProviders.length
      authorizeHealthCalls := [] }

/-- First-match field lookup in a JSON object (the serializer never emits
duplicate field names, so first-match and Go's last-duplicate rule agree). -/
def getField (fields : List (String × Json)) (name : String) : Option Json :=
  match fields with
  | [] => none
  | (n, v) :: rest => if n = name then some v else getField rest name

/-- Unmarshal a string-typed struct field: a missing field or JSON `null` is a
no-op leaving the zero value `""`; a non-string value is an unmarshal type
error (`none`). -/
def parseString (fields : List (String × Json)) (name : String) : Option String :=
  match getField fields name with
  | none => some ""
  | some Json.null => some ""
  | some (Json.str s) => some s
  | some _ => none

/-- Fallible elementwise traversal of a list (the loop `encoding/json` runs
over a JSON array or object, aborting on the first element error). -/
def traverseOption {A B : Type} (f : A -> Option B) : List A -> Option (List B)
  | [] => some []
  | a :: rest => do
      let b <- f a
      let bs <- traverseOption f rest
      some (b :: bs)

/-- Unmarshal a `map[string]string` field (`links`). -/
def parseLinks (fields : List (String × Json)) (name : String) :
    Option (List (String × String)) :=
  match getField fields name with
  | none => some []
  | some Json.null => some []
  | some (Json.obj fs) =>
      traverseOption (fun p => match p.2 with
        | Json.str s => some (p.1, s)
        | Json.null => some (p.1, "")
        | _ => none) fs
  | some _ => none

/-- Unmarshal the `notes []string` field. -/
def parseNotes (fields : List (String × Json)) : Option (List String) :=
  match getField fields "notes" with
  | none => some []
  | some Json.null => some []
  | some (Json.arr xs) =>
      traverseOption (fun j => match j with
        | Json.str s => some s
        | Json.null => some ""
        | _ => none) xs
  | some _ => none

/-- Unmarshal the `observedValue interface\x7b\x7d` field: any JSON value is
accepted; a missing field or JSON `null` leaves the interface nil (`none`). -/
def parseObserved (fields : List (String × Json)) : Option Json :=
  match getField fields "observedValue" with
  | none => none
  | some Json.null => none
  | some v => some v

/-- The Go zero value of `Details`. -/
def zeroDetails : Details :=
  { componentID := "", componentType := "", observedValue := none, observedUnit := ""
    status := "", time := "", output := "", links := [] }

/-- The Go zero value of `Health`. -/
def zeroHealth : Health :=
  { status := "", version := "", releaseID := "", notes := [], output := ""
    details := [], links := [], serviceID := "", description := "" }

/-- `encoding/json` unmarshalling of one `Details` entry (JSON `null` is a no-op
on the zero value; a non-object document is a type error). -/
def detailsFromJson : Json → Option Details
  | Json.null => some zeroDetails
  | Json.obj fields => do
      let componentID ← parseString fields "componentId"
      let componentType ← parseString fields "componentType"
      let observedUnit ← parseString fields "observedUnit"
      let status ← parseString fields "status"
      let time ← parseString fields "time"
      let output ← parseString fields "output"
      let links ← parseLinks fields "links"
      some { componentID := componentID, componentType := componentType
             observedValue := parseObserved fields, observedUnit := observedUnit
             status := status, time := time, output := output, links := links }
  | _ => none

/-- Unmarshal a `[]Details` slice value: `null` yields the nil slice. -/
def entriesFromJson : Json → Option (List Details)
  | Json.null => some []
  | Json.arr xs => traverseOption detailsFromJson xs
  | _ => none

/-- Unmarshal the `details map[string][]Details` field. -/
def parseDetailsMap (fields : List (String × Json)) : Option DetailsMap :=
  match getField fields "details" with
  | none => some []
  | some Json.null => some []
  | some (Json.obj fs) =>
      traverseOption (fun p => (entriesFromJson p.2).map (fun es => (p.1, es))) fs
  | some _ => none

/-- `encoding/json` unmarshalling of a `Health` document. -/
def healthFromJson : Json → Option Health
  | Json.null => some zeroHealth
  | Json.obj fields => do
      let status ← parseString fields "status"
      let version ← parseString fields "version"
      let releaseID ← parseString fields "releaseId"
      let notes ← parseNotes fields
      let output ← parseString fields "output"
      let details ← parseDetailsMap fields
      let links ← parseLinks fields "links"
      let serviceID ← parseString fields "serviceId"
      let description ← parseString fields "description"
      some { status := status, version := version, releaseID := releaseID, notes := notes
             output := output, details := details, links := links, serviceID := serviceID
             description := description }
  | _ => none

/-- All optional fields of a `Details` entry are populated (non-zero); the
`observedValue` interface holds an actual JSON value (in Go a nil interface is
the only way to express absence, so a populated value is never the bare `null`). -/
def Details.populated (d : Details) : Prop :=
  d.componentID ≠ "" ∧ d.componentType ≠ "" ∧
  (∃ v, d.observedValue = some v ∧ v ≠ Json.null) ∧
  d.observedUnit ≠ "" ∧ d.time ≠ "" ∧ d.output ≠ "" ∧ d.links ≠ []

/-- All optional fields of a `Health` document are populated, down to the
entries of the `details` map. -/
def Health.allOptionalPopulated (h : Health) : Prop :=
  h.version ≠ "" ∧ h.releaseID ≠ "" ∧ h.notes ≠ [] ∧ h.output ≠ "" ∧
  h.details ≠ [] ∧ h.links ≠ [] ∧ h.serviceID ≠ "" ∧ h.description ≠ "" ∧
  ∀ p ∈ h.details, p.2 ≠ [] ∧ ∀ d ∈ p.2, d.populated

/-- All optional fields of a `Health` document are absent (Go zero values). -/
def Health.allOptionalAbsent (h : Health) : Prop :=
  h.version = "" ∧ h.releaseID = "" ∧ h.notes = [] ∧ h.output = "" ∧
  h.details = [] ∧ h.links = [] ∧ h.serviceID = "" ∧ h.description = ""

/-- First-match lookup of a response header value. -/
def getHeader (headers : List (String × String)) (name : String) : Option String :=
  match headers with
  | [] => none
  | (n, v) :: rest => if n = name then some v else getHeader rest name

/-- The value of a top-level field of a response's JSON object body (`none` when
the body is absent, not an object, or lacks the field). -/
def bodyField (resp : Response) (name : String) : Option Json :=
  match resp.body with
  | some (Json.obj fields) => getField fields name
  | _ => none

/-- Concrete sample detail entry used by the witness theorems. -/
def exEntry (id : String) : Details :=
  { componentID := id, componentType := "component", observedValue := some (Json.num 1)
    observedUnit := "s", status := Pass, time := "2019-02-20T22:01:44Z", output := "ok"
    links := [("about", "https://example.com")] }

/-- Sample provider contributing to two keys. -/
def exProvider1 : DetailsProvider :=
  { healthDetails := [("db:connections", [exEntry "db1"]), ("uptime", [exEntry "up1"])]
    authorizeHealth := fun _ => true }

/-- Sample provider contributing to a key shared with `exProvider1`. -/
def exProvider2 : DetailsProvider :=
  { healthDetails := [("db:connections", [exEntry "db2"])]
    authorizeHealth := fun _ => false }

/-- Sample template with some static fields set. -/
def exTemplate : Health :=
  { status := Warn, version := "1", releaseID := "1.0.0", notes := ["n"], output := ""
    details := [], links := [], serviceID := "svc", description := "d"
  }

/-- Sample service with two providers. -/
def exService : Service := New exTemplate [exProvider1, exProvider2]

/-- Sample service with no providers. -/
def exServiceEmpty : Service := New exTemplate []

/-- Sample service sharing `exService`'s template and provider detail maps but
with every provider's `AuthorizeHealth` answer flipped. -/
def exServiceAuthFlip : Service :=
  New exTemplate
    [ { healthDetails := exProvider1.healthDetails, authorizeHealth := fun _ => false }
    , { healthDetails := exProvider2.healthDetails, authorizeHealth := fun _ => true } ]

/-- Sample health document with every optional field populated. -/
def exHealthFull : Health :=
  { status := Pass, version := "1", releaseID := "1.0.0", notes := ["note"]
    output := "out", details := [("db", [exEntry "db1"])]
    links := [("self", "/health")], serviceID := "svc", description := "demo" }

/-- Sample health document with every optional field absent. -/
def exHealthAbsent : Health := { zeroHealth with status := Pass }

/-- Sample service whose single provider returns one key bound to an empty
entry list. -/
def exServiceEmptyKey : Service :=
  New exTemplate
    [ { healthDetails := [("db", [])], authorizeHealth := fun _ => true } ]

theorem containsKey_iff (m : DetailsMap) (k : String) :
    containsKey m k = true ↔ ∃ p ∈ m, p.1 = k := by
  simp [containsKey, List.any_eq_true]

theorem goIndex_mapSet_self (m : DetailsMap) (k : String) (v : List Details) :
    goIndex (mapSet m k v) k = v := by
  induction m with
  | nil => simp [mapSet, goIndex]
  | cons p rest ih =>
    obtain ⟨k', v'⟩ := p
    by_cases h : k' = k
    · subst h; simp [mapSet, goIndex]
    · simp [mapSet, goIndex, h, ih]

theorem goIndex_mapSet_ne (m : DetailsMap) (k k' : String) (v : List Details)
    (h : k' ≠ k) : goIndex (mapSet m k v) k' = goIndex m k' := by
  induction m with
  | nil => simp [mapSet, goIndex, Ne.symm h]
  | cons p rest ih =>
    obtain ⟨k₀, v₀⟩ := p
    by_cases hk : k₀ = k
    · subst hk; simp [mapSet, goIndex, Ne.symm h]
    · simp [mapSet, goIndex, hk, ih]

theorem containsKey_mapSet (m : DetailsMap) (k k' : String) (v : List Details) :
    containsKey (mapSet m k v) k' = true ↔ containsKey m k' = true ∨ k' = k := by
  simp only [containsKey_iff]
  induction m with
  | nil => simp [mapSet]; exact eq_comm
  | cons p rest ih =>
    obtain ⟨k₀, v₀⟩ := p
    by_cases hk : k₀ = k
    · subst hk; simp [mapSet]; aesop
    · simp [mapSet, hk]; aesop

theorem goIndex_appendEntries_self (m : DetailsMap) (k : String) (ds : List Details) :
    goIndex (appendEntries m k ds) k = goIndex m k ++ ds := by
  simp [appendEntries, goIndex_mapSet_self]

theorem goIndex_appendEntries_ne (m : DetailsMap) (k k' : String) (ds : List Details)
    (h : k' ≠ k) : goIndex (appendEntries m k ds) k' = goIndex m k' :=
  goIndex_mapSet_ne m k k' _ h

theorem containsKey_appendEntries (m : DetailsMap) (k k' : String) (ds : List Details) :
    containsKey (appendEntries m k ds) k' = true ↔ containsKey m k' = true ∨ k' = k :=
  containsKey_mapSet m k k' _

theorem entriesFor_cons (k₀ k : String) (ds₀ : List Details) (rest : DetailsMap) :
    entriesFor ((k₀, ds₀) :: rest) k
      = (if k₀ = k then ds₀ else []) ++ entriesFor rest k := by
  by_cases h : k₀ = k <;> simp [entriesFor, List.filter_cons, h]

theorem goIndex_mergeProvider (pm : DetailsMap) (m : DetailsMap) (k : String) :
    goIndex (mergeProvider m pm) k = goIndex m k ++ entriesFor pm k := by
  induction pm generalizing m with
  | nil => simp [mergeProvider, entriesFor]
  | cons p rest ih =>
    obtain ⟨k₀, ds₀⟩ := p
    show goIndex (List.foldl _ (appendEntries m k₀ ds₀) rest) k = _
    rw [show ∀ m', List.foldl (fun acc p => appendEntries acc p.1 p.2) m' rest
          = mergeProvider m' rest from fun _ => rfl, ih, entriesFor_cons]
    by_cases h : k₀ = k
    · subst h; rw [goIndex_appendEntries_self]; simp
    · rw [goIndex_appendEntries_ne m k₀ k ds₀ (Ne.symm h)]; simp [h]

theorem containsKey_mergeProvider (pm : DetailsMap) (m : DetailsMap) (k : String) :
    containsKey (mergeProvider m pm) k = true
      ↔ containsKey m k = true ∨ containsKey pm k = true := by
  induction pm generalizing m with
  | nil => simp [mergeProvider, containsKey]
  | cons p rest ih =>
    obtain ⟨k₀, ds₀⟩ := p
    show containsKey (List.foldl _ (appendEntries m k₀ ds₀) rest) k = true ↔ _
    rw [show ∀ m', List.foldl (fun acc p => appendEntries acc p.1 p.2) m' rest
          = mergeProvider m' rest from fun _ => rfl, ih, containsKey_appendEntries]
    simp only [containsKey_iff, List.mem_cons]
    aesop

theorem goIndex_foldl_mergeProvider (pms : List DetailsMap) (m : DetailsMap) (k : String) :
    goIndex (pms.foldl mergeProvider m) k
      = goIndex m k ++ (pms.map (fun pm => entriesFor pm k)).flatten := by
  induction pms generalizing m with
  | nil => simp
  | cons pm rest ih => simp [List.foldl_cons, ih, goIndex_mergeProvider]

theorem goIndex_mergeAll (pms : List DetailsMap) (k : String) :
    goIndex (mergeAll pms) k = (pms.map (fun pm => entriesFor pm k)).flatten := by
  simpa [goIndex] using goIndex_foldl_mergeProvider pms [] k

theorem containsKey_foldl_mergeProvider (pms : List DetailsMap) (m : DetailsMap)
    (k : String) :
    containsKey (pms.foldl mergeProvider m) k = true
      ↔ containsKey m k = true ∨ ∃ pm ∈ pms, containsKey pm k = true := by
  induction pms generalizing m with
  | nil => simp
  | cons pm rest ih =>
    simp only [List.foldl_cons, ih, containsKey_mergeProvider, List.mem_cons]
    constructor
    · rintro (⟨h | h⟩ | ⟨q, hq, h⟩)
      · exact Or.inl h
      · exact Or.inr ⟨pm, Or.inl rfl, h⟩
      · exact Or.inr ⟨q, Or.inr hq, h⟩
    · rintro (h | ⟨q, hq | hq, h⟩)
      · exact Or.inl (Or.inl h)
      · exact Or.inl (Or.inr (hq ▸ h))
      · exact Or.inr ⟨q, hq, h⟩

theorem containsKey_mergeAll (pms : List DetailsMap) (k : String) :
    containsKey (mergeAll pms) k = true ↔ ∃ pm ∈ pms, containsKey pm k = true := by
  simpa [mergeAll, containsKey] using containsKey_foldl_mergeProvider pms [] k

theorem getField_optField_append_ne (n m : String) (j : Option Json)
    (rest : List (String × Json)) (h : m ≠ n) :
    getField (optField n j ++ rest) m = getField rest m := by
  cases j <;> simp [optField, getField, Ne.symm h]

theorem getField_optField_append_some (n : String) (v : Json)
    (rest : List (String × Json)) :
    getField (optField n (some v) ++ rest) n = some v := by
  simp [optField, getField]

theorem getField_optField_append_none (n : String) (rest : List (String × Json)) :
    getField (optField n none ++ rest) n = getField rest n := rfl

theorem getField_optField_self (n : String) (j : Option Json) :
    getField (optField n j) n = j := by
  cases j <;> simp [optField, getField]

theorem getField_optField_ne (n m : String) (j : Option Json) (h : m ≠ n) :
    getField (optField n j) m = none := by
  cases j <;> simp [optField, getField, Ne.symm h]

theorem getField_cons_self (n : String) (v : Json) (rest : List (String × Json)) :
    getField ((n, v) :: rest) n = some v := by
  simp [getField]

theorem getField_cons_ne (n m : String) (v : Json) (rest : List (String × Json))
    (h : m ≠ n) : getField ((n, v) :: rest) m = getField rest m := by
  simp [getField, Ne.symm h]

/-- Reduction of the handler on a read request (`GET` or `HEAD`): the branch at
`health.go:208-217`. -/
theorem Handler_read (s : Service) (r : Request)
    (hm : r.method = "GET" ∨ r.method = "HEAD") :
    Handler s r =
      { service :=
          { s with
            template :=
              { s.template with
                status := Pass
                details := mergeAll (s.detailsProviders.map (fun p => p.healthDetails)) } }
        response :=
          { statusCode := 200
            headers := [("Content-Type", "application/health+json")]
            body := some (healthToJson
              { s.template with
                status := Pass
                details := mergeAll (s.detailsProviders.map (fun p => p.healthDetails)) }) }
        healthDetailsCalls := List.range s.detailsProviders.length
        authorizeHealthCalls := [] } := by
  rcases hm with h | h <;> simp [Handler, h]

/-- C4: for every GET request, whatever the registered providers return and
whatever the template holds, the handler writes HTTP status 200 and the
`Content-Type: application/health+json` header; the status code never depends
on health content (the encode step at `health.go:217` runs after
`WriteHeader(200)` and its error is discarded). -/
theorem C4_get_always_200 (s : Service) (r : Request) (h : r.method = "GET") :
    (Handler s r).response.statusCode = 200 ∧
    ("Content-Type", "application/health+json") ∈ (Handler s r).response.headers := by
  rw [Handler_read s r (Or.inl h)]
  exact ⟨rfl, by simp⟩

/-- Witness for C4: the concrete two-provider service. -/
theorem C4_get_always_200_witness :
    (Handler exService { method := "GET" }).response.statusCode = 200 ∧
    ("Content-Type", "application/health+json")
      ∈ (Handler exService { method := "GET" }).response.headers :=
  C4_get_always_200 exService { method := "GET" } rfl

/-- C5: an OPTIONS request gets status 200, an empty body, `Allow` equal exactly
to "OPTIONS, GET, HEAD", `Cache-Control: max-age=604800`, and no provider's
`HealthDetails()` is invoked (`health.go:198-203`). -/
theorem C5_options_preflight (s : Service) (r : Request) (h : r.method = "OPTIONS") :
    (Handler s r).response.statusCode = 200 ∧
    (Handler s r).response.body = none ∧
    getHeader (Handler s r).response.headers "Allow" = some "OPTIONS, GET, HEAD" ∧
    getHeader (Handler s r).response.headers "Cache-Control" = some "max-age=604800" ∧
    (Handler s r).healthDetailsCalls = [] := by
  simp [Handler, h, getHeader]

/-- Witness for C5: the concrete two-provider service. -/
theorem C5_options_preflight_witness :
    (Handler exService { method := "OPTIONS" }).response.statusCode = 200 ∧
    (Handler exService { method := "OPTIONS" }).response.body = none ∧
    getHeader (Handler exService { method := "OPTIONS" }).response.headers "Allow"
      = some "OPTIONS, GET, HEAD" ∧
    getHeader (Handler exService { method := "OPTIONS" }).response.headers "Cache-Control"
      = some "max-age=604800" ∧
    (Handler exService { method := "OPTIONS" }).healthDetailsCalls = [] :=
  C5_options_preflight exService { method := "OPTIONS" } rfl

/-- C6: any method other than OPTIONS, GET and HEAD gets status 405 with an
empty body, no provider query, no document construction (the service state is
untouched), and the `Content-Type: application/health+json` header is still set
(`health.go:197,204-207`). -/
theorem C6_method_not_allowed (s : Service) (r : Request)
    (h1 : r.method ≠ "OPTIONS") (h2 : r.method ≠ "GET") (h3 : r.method ≠ "HEAD") :
    (Handler s r).response.statusCode = 405 ∧
    (Handler s r).response.body = none ∧
    (Handler s r).healthDetailsCalls = [] ∧
    (Handler s r).service = s ∧
    ("Content-Type", "application/health+json") ∈ (Handler s r).response.headers := by
  simp [Handler, h1, h2, h3]

/-- Witness for C6: a POST request to the concrete two-provider service. -/
theorem C6_method_not_allowed_witness :
    (Handler exService { method := "POST" }).response.statusCode = 405 ∧
    (Handler exService { method := "POST" }).response.body = none ∧
    (Handler exService { method := "POST" }).healthDetailsCalls = [] ∧
    (Handler exService { method := "POST" }).service = exService ∧
    ("Content-Type", "application/health+json")
      ∈ (Handler exService { method := "POST" }).response.headers :=
  C6_method_not_allowed exService { method := "POST" }
    (by decide) (by decide) (by decide)

/-- C8: handling any request leaves the template's version, releaseId, notes,
output, links, serviceId and description fields and the registered provider
list unchanged; only `status` and `details` are ever reassigned
(`health.go:209-210`). -/
theorem C8_frame_static_fields (s : Service) (r : Request) :
    (Handler s r).service.detailsProviders = s.detailsProviders ∧
    (Handler s r).service.template.version = s.template.version ∧
    (Handler s r).service.template.releaseID = s.template.releaseID ∧
    (Handler s r).service.template.notes = s.template.notes ∧
    (Handler s r).service.template.output = s.template.output ∧
    (Handler s r).service.template.links = s.template.links ∧
    (Handler s r).service.template.serviceID = s.template.serviceID ∧
    (Handler s r).service.template.description = s.template.description := by
  by_cases h1 : r.method = "OPTIONS"
  · simp [Handler, h1]
  · by_cases h2 : r.method ≠ "GET" ∧ r.method ≠ "HEAD"
    · simp [Handler, h1, h2]
    · simp [Handler, h1, h2]

/-- C7: the handler never invokes `AuthorizeHealth` (the trace of such calls is
empty on every branch of `health.go:196-218`), so two runs on the same request
against services that differ only in their providers' `AuthorizeHealth`
behaviour produce identical responses. -/
theorem C7_authorize_health_unused (s₁ s₂ : Service) (r : Request)
    (ht : s₁.template = s₂.template)
    (hd : s₁.detailsProviders.map (fun p => p.healthDetails)
        = s₂.detailsProviders.map (fun p => p.healthDetails)) :
    (Handler s₁ r).response = (Handler s₂ r).response ∧
    (Handler s₁ r).authorizeHealthCalls = [] ∧
    (Handler s₂ r).authorizeHealthCalls = [] := by
  have hlen : s₁.detailsProviders.length = s₂.detailsProviders.length := by
    have := congrArg List.length hd
    simpa using this
  by_cases h1 : r.method = "OPTIONS"
  · simp [Handler, h1]
  · by_cases h2 : r.method ≠ "GET" ∧ r.method ≠ "HEAD"
    · simp [Handler, h1, h2]
    · simp [Handler, h1, h2, ht, hd, hlen]

/-- Witness for C7: `exService` against `exServiceAuthFlip` on a GET request. -/
theorem C7_authorize_health_unused_witness :
    (Handler exService { method := "GET" }).response
      = (Handler exServiceAuthFlip { method := "GET" }).response ∧
    (Handler exService { method := "GET" }).authorizeHealthCalls = [] ∧
    (Handler exServiceAuthFlip { method := "GET" }).authorizeHealthCalls = [] :=
  C7_authorize_health_unused exService exServiceAuthFlip { method := "GET" } rfl rfl

/-- C3 (code evidence): the handler does not give each request its own working
copy — a GET request mutates the shared `h.template` in place
(`health.go:209-210`): after handling one GET, the service's stored template
differs from the template it held before the request. -/
theorem C3_template_mutated_in_place :
    (Handler exService { method := "GET" }).service.template
      ≠ exService.template := by
  intro h
  have e1 : (Handler exService { method := "GET" }).service.template.details
      = [("db:connections", [exEntry "db1", exEntry "db2"]), ("uptime", [exEntry "up1"])] := rfl
  rw [h] at e1
  have e2 : exService.template.details = [] := rfl
  rw [e2] at e1
  exact List.noConfusion e1

theorem getField_healthFields_status (h : Health) :
    getField (healthFields h) "status" = some (Json.str h.status) := by
  simp [healthFields, List.append_assoc, getField]

theorem getField_healthFields_version (h : Health) :
    getField (healthFields h) "version"
      = if h.version = "" then none else some (Json.str h.version) := by
  by_cases hv : h.version = "" <;>
    simp [healthFields, stringField, notesField, detailsMapField, linksField,
      List.append_assoc, getField, hv, getField_optField_append_ne,
      getField_optField_append_some, getField_optField_append_none, getField_optField_ne]

theorem getField_healthFields_releaseId (h : Health) :
    getField (healthFields h) "releaseId"
      = if h.releaseID = "" then none else some (Json.str h.releaseID) := by
  by_cases hv : h.releaseID = "" <;>
    simp [healthFields, stringField, notesField, detailsMapField, linksField,
      List.append_assoc, getField, hv, getField_optField_append_ne,
      getField_optField_append_some, getField_optField_append_none, getField_optField_ne]

theorem getField_healthFields_notes (h : Health) :
    getField (healthFields h) "notes"
      = (match h.notes with
          | [] => none
          | _ => some (Json.arr (h.notes.map Json.str))) := by
  cases hn : h.notes <;>
    simp [healthFields, stringField, notesField, detailsMapField, linksField,
      List.append_assoc, getField, hn, getField_optField_append_ne,
      getField_optField_append_some, getField_optField_append_none, getField_optField_ne]

theorem getField_healthFields_output (h : Health) :
    getField (healthFields h) "output"
      = if h.output = "" then none else some (Json.str h.output) := by
  by_cases hv : h.output = "" <;>
    simp [healthFields, stringField, notesField, detailsMapField, linksField,
      List.append_assoc, getField, hv, getField_optField_append_ne,
      getField_optField_append_some, getField_optField_append_none, getField_optField_ne]

theorem getField_healthFields_details (h : Health) :
    getField (healthFields h) "details"
      = (match h.details with
          | [] => none
          | _ => some (Json.obj (h.details.map (fun p => (p.1, entriesToJson p.2))))) := by
  cases hd : h.details <;>
    simp [healthFields, stringField, notesField, detailsMapField, linksField,
      List.append_assoc, getField, hd, getField_optField_append_ne,
      getField_optField_append_some, getField_optField_append_none, getField_optField_ne]

theorem getField_healthFields_links (h : Health) :
    getField (healthFields h) "links"
      = (match h.links with
          | [] => none
          | _ => some (Json.obj (h.links.map (fun p => (p.1, Json.str p.2))))) := by
  cases hl : h.links <;>
    simp [healthFields, stringField, notesField, detailsMapField, linksField,
      List.append_assoc, getField, hl, getField_optField_append_ne,
      getField_optField_append_some, getField_optField_append_none, getField_optField_ne]

theorem getField_healthFields_serviceId (h : Health) :
    getField (healthFields h) "serviceId"
      = if h.serviceID = "" then none else some (Json.str h.serviceID) := by
  by_cases hv : h.serviceID = "" <;>
    simp [healthFields, stringField, notesField, detailsMapField, linksField,
      List.append_assoc, getField, hv, getField_optField_append_ne,
      getField_optField_append_some, getField_optField_append_none, getField_optField_ne]

theorem getField_healthFields_description (h : Health) :
    getField (healthFields h) "description"
      = if h.description = "" then none else some (Json.str h.description) := by
  by_cases hv : h.description = "" <;>
    simp [healthFields, stringField, notesField, detailsMapField, linksField,
      List.append_assoc, getField, hv, getField_optField_append_ne,
      getField_optField_append_some, getField_optField_append_none, getField_optField_ne]

theorem getField_detailsFields_componentId (d : Details) :
    getField (detailsFields d) "componentId"
      = if d.componentID = "" then none else some (Json.str d.componentID) := by
  by_cases hv : d.componentID = "" <;>
    simp [detailsFields, stringField, observedField, linksField,
      List.append_assoc, getField, hv, getField_optField_append_ne,
      getField_optField_append_some, getField_optField_append_none, getField_optField_ne]

theorem getField_detailsFields_componentType (d : Details) :
    getField (detailsFields d) "componentType"
      = if d.componentType = "" then none else some (Json.str d.componentType) := by
  by_cases hv : d.componentType = "" <;>
    simp [detailsFields, stringField, observedField, linksField,
      List.append_assoc, getField, hv, getField_optField_append_ne,
      getField_optField_append_some, getField_optField_append_none, getField_optField_ne]

theorem getField_detailsFields_observedValue (d : Details) :
    getField (detailsFields d) "observedValue" = d.observedValue := by
  cases ho : d.observedValue <;>
    simp [detailsFields, stringField, observedField, linksField,
      List.append_assoc, getField, ho, getField_optField_append_ne,
      getField_optField_append_some, getField_optField_append_none, getField_optField_ne]

theorem getField_detailsFields_observedUnit (d : Details) :
    getField (detailsFields d) "observedUnit"
      = if d.observedUnit = "" then none else some (Json.str d.observedUnit) := by
  by_cases hv : d.observedUnit = "" <;>
    simp [detailsFields, stringField, observedField, linksField,
      List.append_assoc, getField, hv, getField_optField_append_ne,
      getField_optField_append_some, getField_optField_append_none, getField_optField_ne]

theorem getField_detailsFields_status (d : Details) :
    getField (detailsFields d) "status" = some (Json.str d.status) := by
  simp [detailsFields, stringField, observedField, linksField,
    List.append_assoc, getField, getField_optField_append_ne,
    getField_optField_append_some, getField_optField_append_none, getField_optField_ne]

theorem getField_detailsFields_time (d : Details) :
    getField (detailsFields d) "time"
      = if d.time = "" then none else some (Json.str d.time) := by
  by_cases hv : d.time = "" <;>
    simp [detailsFields, stringField, observedField, linksField,
      List.append_assoc, getField, hv, getField_optField_append_ne,
      getField_optField_append_some, getField_optField_append_none, getField_optField_ne]

theorem getField_detailsFields_output (d : Details) :
    getField (detailsFields d) "output"
      = if d.output = "" then none else some (Json.str d.output) := by
  by_cases hv : d.output = "" <;>
    simp [detailsFields, stringField, observedField, linksField,
      List.append_assoc, getField, hv, getField_optField_append_ne,
      getField_optField_append_some, getField_optField_append_none, getField_optField_ne]

theorem getField_detailsFields_links (d : Details) :
    getField (detailsFields d) "links"
      = (match d.links with
          | [] => none
          | _ => some (Json.obj (d.links.map (fun p => (p.1, Json.str p.2))))) := by
  cases hl : d.links <;>
    simp [detailsFields, stringField, observedField, linksField,
      List.append_assoc, getField, hl, getField_optField_append_ne,
      getField_optField_append_some, getField_optField_append_none, getField_optField_ne]

theorem parseString_healthFields_status (h : Health) :
    parseString (healthFields h) "status" = some h.status := by
  simp [parseString, getField_healthFields_status]

theorem parseString_healthFields_version (h : Health) :
    parseString (healthFields h) "version" = some h.version := by
  by_cases hv : h.version = "" <;> simp [parseString, getField_healthFields_version, hv]

theorem parseString_healthFields_releaseId (h : Health) :
    parseString (healthFields h) "releaseId" = some h.releaseID := by
  by_cases hv : h.releaseID = "" <;> simp [parseString, getField_healthFields_releaseId, hv]

theorem parseString_healthFields_output (h : Health) :
    parseString (healthFields h) "output" = some h.output := by
  by_cases hv : h.output = "" <;> simp [parseString, getField_healthFields_output, hv]

theorem parseString_healthFields_serviceId (h : Health) :
    parseString (healthFields h) "serviceId" = some h.serviceID := by
  by_cases hv : h.serviceID = "" <;> simp [parseString, getField_healthFields_serviceId, hv]

theorem parseString_healthFields_description (h : Health) :
    parseString (healthFields h) "description" = some h.description := by
  by_cases hv : h.description = "" <;> simp [parseString, getField_healthFields_description, hv]

theorem traverseOption_str_list (l : List String) :
    traverseOption
        (fun j => match j with
          | Json.str s => some s
          | Json.null => some ""
          | _ => none) (l.map Json.str) = some l := by
  induction l with
  | nil => rfl
  | cons a rest ih => simp [traverseOption, ih]

theorem parseNotes_healthFields (h : Health) :
    parseNotes (healthFields h) = some h.notes := by
  cases hn : h.notes with
  | nil => simp [parseNotes, getField_healthFields_notes, hn]
  | cons a rest => simp [parseNotes, getField_healthFields_notes, hn, traverseOption, traverseOption_str_list]

theorem traverseOption_link_pairs (l : List (String × String)) :
    traverseOption
        (fun p => match p.2 with
          | Json.str s => some (p.1, s)
          | Json.null => some (p.1, "")
          | _ => none) (l.map (fun p => (p.1, Json.str p.2))) = some l := by
  induction l with
  | nil => rfl
  | cons p rest ih => simp [traverseOption, ih]

theorem parseLinks_healthFields (h : Health) :
    parseLinks (healthFields h) "links" = some h.links := by
  cases hl : h.links with
  | nil => simp [parseLinks, getField_healthFields_links, hl]
  | cons p rest => simp [parseLinks, getField_healthFields_links, hl, traverseOption, traverseOption_link_pairs]

theorem parseString_detailsFields_componentId (d : Details) :
    parseString (detailsFields d) "componentId" = some d.componentID := by
  by_cases hv : d.componentID = "" <;>
    simp [parseString, getField_detailsFields_componentId, hv]

theorem parseString_detailsFields_componentType (d : Details) :
    parseString (detailsFields d) "componentType" = some d.componentType := by
  by_cases hv : d.componentType = "" <;>
    simp [parseString, getField_detailsFields_componentType, hv]

theorem parseString_detailsFields_observedUnit (d : Details) :
    parseString (detailsFields d) "observedUnit" = some d.observedUnit := by
  by_cases hv : d.observedUnit = "" <;>
    simp [parseString, getField_detailsFields_observedUnit, hv]

theorem parseString_detailsFields_status (d : Details) :
    parseString (detailsFields d) "status" = some d.status := by
  simp [parseString, getField_detailsFields_status]

theorem parseString_detailsFields_time (d : Details) :
    parseString (detailsFields d) "time" = some d.time := by
  by_cases hv : d.time = "" <;> simp [parseString, getField_detailsFields_time, hv]

theorem parseString_detailsFields_output (d : Details) :
    parseString (detailsFields d) "output" = some d.output := by
  by_cases hv : d.output = "" <;> simp [parseString, getField_detailsFields_output, hv]

theorem parseLinks_detailsFields (d : Details) :
    parseLinks (detailsFields d) "links" = some d.links := by
  cases hl : d.links with
  | nil => simp [parseLinks, getField_detailsFields_links, hl]
  | cons p rest => simp [parseLinks, getField_detailsFields_links, hl, traverseOption, traverseOption_link_pairs]

theorem parseObserved_detailsFields (d : Details)
    (hd : d.observedValue ≠ some Json.null) :
    parseObserved (detailsFields d) = d.observedValue := by
  cases ho : d.observedValue with
  | none => simp [parseObserved, getField_detailsFields_observedValue, ho]
  | some v =>
    cases v <;> simp_all [parseObserved, getField_detailsFields_observedValue]

theorem detailsFromJson_detailsToJson (d : Details)
    (hd : d.observedValue ≠ some Json.null) :
    detailsFromJson (detailsToJson d) = some d := by
  simp [detailsToJson, detailsFromJson, parseString_detailsFields_componentId,
    parseString_detailsFields_componentType, parseString_detailsFields_observedUnit,
    parseString_detailsFields_status, parseString_detailsFields_time,
    parseString_detailsFields_output, parseLinks_detailsFields,
    parseObserved_detailsFields d hd]

theorem traverseOption_details_list (es : List Details)
    (hd : ∀ d ∈ es, d.observedValue ≠ some Json.null) :
    traverseOption detailsFromJson (es.map detailsToJson) = some es := by
  induction es with
  | nil => rfl
  | cons d rest ih =>
    simp [traverseOption, detailsFromJson_detailsToJson d (hd d (by simp)),
      ih (fun x hx => hd x (by simp [hx]))]

theorem entriesFromJson_entriesToJson (es : List Details)
    (hd : ∀ d ∈ es, d.observedValue ≠ some Json.null) :
    entriesFromJson (entriesToJson es) = some es := by
  cases es with
  | nil => rfl
  | cons d rest =>
    simp only [entriesToJson, entriesFromJson]
    exact traverseOption_details_list _ hd

theorem traverseOption_details_pairs (m : DetailsMap)
    (hd : ∀ p ∈ m, ∀ d ∈ p.2, d.observedValue ≠ some Json.null) :
    traverseOption (fun p => (entriesFromJson p.2).map (fun es => (p.1, es)))
        (m.map (fun p => (p.1, entriesToJson p.2))) = some m := by
  induction m with
  | nil => rfl
  | cons q rest ih =>
    simp [traverseOption, entriesFromJson_entriesToJson q.2 (hd q (by simp)),
      ih (fun x hx => hd x (by simp [hx]))]

theorem parseDetailsMap_healthFields (h : Health)
    (hd : ∀ p ∈ h.details, ∀ d ∈ p.2, d.observedValue ≠ some Json.null) :
    parseDetailsMap (healthFields h) = some h.details := by
  cases hdet : h.details with
  | nil => simp [parseDetailsMap, getField_healthFields_details, hdet]
  | cons q rest =>
    rw [hdet] at hd
    simp only [parseDetailsMap, getField_healthFields_details, hdet]
    exact traverseOption_details_pairs _ hd

theorem healthFromJson_healthToJson (h : Health)
    (hd : ∀ p ∈ h.details, ∀ d ∈ p.2, d.observedValue ≠ some Json.null) :
    healthFromJson (healthToJson h) = some h := by
  simp [healthToJson, healthFromJson, parseString_healthFields_status,
    parseString_healthFields_version, parseString_healthFields_releaseId,
    parseNotes_healthFields, parseString_healthFields_output,
    parseDetailsMap_healthFields h hd, parseLinks_healthFields,
    parseString_healthFields_serviceId, parseString_healthFields_description]

theorem flatten_nil_of_all_nil {A : Type} (ls : List (List A))
    (h : ∀ l ∈ ls, l = []) : ls.flatten = [] := by
  induction ls with
  | nil => rfl
  | cons l rest ih =>
    simp [List.flatten_cons, h l (by simp), ih (fun x hx => h x (by simp [hx]))]

theorem getField_map_entries (m : DetailsMap) (k : String)
    (h : containsKey m k = true) :
    getField (m.map (fun p => (p.1, entriesToJson p.2))) k
      = some (entriesToJson (goIndex m k)) := by
  induction m with
  | nil => simp [containsKey] at h
  | cons p rest ih =>
    obtain ⟨k₀, v₀⟩ := p
    by_cases hk : k₀ = k
    · subst hk; simp [getField, goIndex]
    · have h' : containsKey rest k = true := by simpa [containsKey, hk] using h
      simp [getField, goIndex, hk, ih h']

theorem getField_healthFields_details_of_contains (h : Health) (k : String)
    (hc : containsKey h.details k = true) :
    getField (healthFields h) "details"
      = some (Json.obj (h.details.map (fun p => (p.1, entriesToJson p.2)))) := by
  rw [getField_healthFields_details]
  cases hdt : h.details with
  | nil => rw [hdt] at hc; simp [containsKey] at hc
  | cons q qs => rfl

/-- C1: on every GET or HEAD request the serialized body is the merged
template, whose `details` map contains exactly the union of the keys returned
by the registered providers (nothing dropped, nothing deduplicated), and binds
each key to the concatenation, in provider registration order, of each
provider's entries for that key, each provider's own entry order preserved
(`health.go:209-217`). -/
theorem C1_details_union_concat (s : Service) (r : Request)
    (hm : r.method = "GET" ∨ r.method = "HEAD") (k : String) :
    (Handler s r).response.body
      = some (healthToJson (Handler s r).service.template) ∧
    (containsKey (Handler s r).service.template.details k = true ↔
      ∃ p ∈ s.detailsProviders, containsKey p.healthDetails k = true) ∧
    goIndex (Handler s r).service.template.details k
      = (s.detailsProviders.map (fun p => entriesFor p.healthDetails k)).flatten := by
  rw [Handler_read s r hm]
  refine ⟨rfl, ?_, ?_⟩
  · show containsKey (mergeAll (s.detailsProviders.map (fun p => p.healthDetails))) k
        = true ↔ _
    rw [containsKey_mergeAll]
    constructor
    · rintro ⟨pm, hpm, hc⟩
      obtain ⟨p, hp, rfl⟩ := List.mem_map.mp hpm
      exact ⟨p, hp, hc⟩
    · rintro ⟨p, hp, hc⟩
      exact ⟨p.healthDetails, List.mem_map.mpr ⟨p, hp, rfl⟩, hc⟩
  · show goIndex (mergeAll (s.detailsProviders.map (fun p => p.healthDetails))) k = _
    rw [goIndex_mergeAll, List.map_map]
    rfl

/-- Witness for C1 at the concrete two-provider service, on the key both
providers contribute to. -/
theorem C1_details_union_concat_witness :
    (Handler exService { method := "GET" }).response.body
      = some (healthToJson (Handler exService { method := "GET" }).service.template) ∧
    (containsKey (Handler exService { method := "GET" }).service.template.details
        "db:connections" = true ↔
      ∃ p ∈ exService.detailsProviders,
        containsKey p.healthDetails "db:connections" = true) ∧
    goIndex (Handler exService { method := "GET" }).service.template.details
        "db:connections"
      = (exService.detailsProviders.map
          (fun p => entriesFor p.healthDetails "db:connections")).flatten :=
  C1_details_union_concat exService { method := "GET" } (Or.inl rfl) "db:connections"

/-- C2 counterexample: for the concrete zero-provider service, the GET response
body carries `status` = "pass" but the `details` field is NOT present — the
`omitempty` tag on `Details` (`health.go:90`) drops the freshly made empty map
from the serialized object, refuting the claim that `details` is present as an
empty mapping. -/
theorem C2_details_omitted_counterexample :
    bodyField (Handler exServiceEmpty { method := "GET" }).response "status"
      = some (Json.str "pass") ∧
    bodyField (Handler exServiceEmpty { method := "GET" }).response "details"
      = none := by
  constructor <;> rfl

/-- C2 (amended): for any service with zero providers, a GET request resets the
in-memory template to `status = "pass"` with an empty (but allocated) `details`
map, and the serialized body has `status` exactly "pass" while the `details`
field is omitted entirely (rather than present as an empty mapping), because of
the `omitempty` tag on the `Details` field (`health.go:90,208-217`). -/
theorem C2_zero_providers (s : Service) (r : Request)
    (hp : s.detailsProviders = []) (hm : r.method = "GET") :
    (Handler s r).service.template.status = Pass ∧
    (Handler s r).service.template.details = [] ∧
    bodyField (Handler s r).response "status" = some (Json.str Pass) ∧
    bodyField (Handler s r).response "details" = none := by
  rw [Handler_read s r (Or.inl hm)]
  refine ⟨rfl, by simp [hp, mergeAll], ?_, ?_⟩
  · simp [bodyField, healthToJson, getField_healthFields_status]
  · simp [bodyField, healthToJson, getField_healthFields_details, hp, mergeAll]

/-- Witness for C2 (amended) at the concrete zero-provider service. -/
theorem C2_zero_providers_witness :
    (Handler exServiceEmpty { method := "GET" }).service.template.status = Pass ∧
    (Handler exServiceEmpty { method := "GET" }).service.template.details = [] ∧
    bodyField (Handler exServiceEmpty { method := "GET" }).response "status"
      = some (Json.str Pass) ∧
    bodyField (Handler exServiceEmpty { method := "GET" }).response "details"
      = none :=
  C2_zero_providers exServiceEmpty { method := "GET" } rfl rfl

/-- C10: if some provider's returned map binds key `k` to an empty entry list
and no provider contributes any entry for `k`, the merged `details` map still
contains `k`, bound to the empty (nil) slice — `m[k] = append(m[k], ds...)`
stores the key even when nothing is appended (`health.go:211-216`) — and in
the serialized body the `details` object maps `k` to JSON `null` (a nil
`[]Details` slice marshals to `null`). -/
theorem C10_empty_contribution_key_kept (s : Service) (r : Request) (k : String)
    (hm : r.method = "GET")
    (hk : ∃ p ∈ s.detailsProviders, containsKey p.healthDetails k = true)
    (hempty : ∀ p ∈ s.detailsProviders, entriesFor p.healthDetails k = []) :
    containsKey (Handler s r).service.template.details k = true ∧
    goIndex (Handler s r).service.template.details k = [] ∧
    (∃ dfields,
      bodyField (Handler s r).response "details" = some (Json.obj dfields) ∧
      getField dfields k = some Json.null) := by
  rw [Handler_read s r (Or.inl hm)]
  have hcontains :
      containsKey (mergeAll (s.detailsProviders.map (fun p => p.healthDetails))) k
        = true := by
    rw [containsKey_mergeAll]
    obtain ⟨p, hp, hc⟩ := hk
    exact ⟨p.healthDetails, List.mem_map.mpr ⟨p, hp, rfl⟩, hc⟩
  have hnil :
      goIndex (mergeAll (s.detailsProviders.map (fun p => p.healthDetails))) k
        = [] := by
    rw [goIndex_mergeAll, List.map_map]
    apply flatten_nil_of_all_nil
    intro l hl
    obtain ⟨p, hp, rfl⟩ := List.mem_map.mp hl
    exact hempty p hp
  refine ⟨hcontains, hnil,
    (mergeAll (s.detailsProviders.map (fun p => p.healthDetails))).map
      (fun p => (p.1, entriesToJson p.2)), ?_, ?_⟩
  · show getField (healthFields _) "details" = _
    exact getField_healthFields_details_of_contains _ k hcontains
  · rw [getField_map_entries _ _ hcontains, hnil]
    rfl

/-- Witness for C10: a service whose only provider returns the key "db" bound
to an empty entry list. -/
theorem C10_empty_contribution_key_kept_witness :
    containsKey (Handler exServiceEmptyKey { method := "GET" }).service.template.details
      "db" = true ∧
    goIndex (Handler exServiceEmptyKey { method := "GET" }).service.template.details
      "db" = [] ∧
    (∃ dfields,
      bodyField (Handler exServiceEmptyKey { method := "GET" }).response "details"
        = some (Json.obj dfields) ∧
      getField dfields "db" = some Json.null) :=
  C10_empty_contribution_key_kept exServiceEmptyKey { method := "GET" } "db" rfl
    ⟨{ healthDetails := [("db", [])], authorizeHealth := fun _ => true },
      by simp [exServiceEmptyKey, New], by simp [containsKey]⟩
    (by
      intro p hp
      simp only [exServiceEmptyKey, New, List.mem_singleton] at hp
      subst hp
      simp [entriesFor])

/-- C9: marshalling a `Health` document whose optional fields are all populated
and unmarshalling the result yields a structurally equal document; marshalling
one whose optional fields are all absent emits only the mandatory `status`
field (the optional ones are omitted entirely, neither `null` nor empty
collections), and unmarshalling then re-marshalling leaves them absent
(`health.go:47-102,126-168`, the `omitempty` tags). -/
theorem C9_serialization_roundtrip :
    (∀ h : Health, h.allOptionalPopulated →
      healthFromJson (healthToJson h) = some h) ∧
    (∀ h : Health, h.allOptionalAbsent →
      healthToJson h = Json.obj [("status", Json.str h.status)] ∧
      healthFromJson (healthToJson h) = some h) := by
  constructor
  · intro h hp
    apply healthFromJson_healthToJson
    intro p hp' d hd'
    obtain ⟨-, -, -, -, -, -, -, -, hdet⟩ := hp
    obtain ⟨-, hpop⟩ := hdet p hp'
    obtain ⟨-, -, ⟨v, hv, hvnull⟩, -⟩ := hpop d hd'
    rw [hv]
    intro hcon
    exact hvnull (Option.some.inj hcon)
  · intro h ha
    obtain ⟨h1, h2, h3, h4, h5, h6, h7, h8⟩ := ha
    constructor
    · simp [healthToJson, healthFields, stringField, notesField, detailsMapField,
        linksField, optField, h1, h2, h3, h4, h5, h6, h7, h8]
    · apply healthFromJson_healthToJson
      intro p hp'
      rw [h5] at hp'
      exact absurd hp' (List.not_mem_nil p)

/-- Witness for C9 at a concrete fully populated document and a concrete
all-absent document. -/
theorem C9_serialization_roundtrip_witness :
    healthFromJson (healthToJson exHealthFull) = some exHealthFull ∧
    healthToJson exHealthAbsent = Json.obj [("status", Json.str exHealthAbsent.status)] ∧
    healthFromJson (healthToJson exHealthAbsent) = some exHealthAbsent := by
  have hpop : exHealthFull.allOptionalPopulated := by
    refine ⟨by simp [exHealthFull], by simp [exHealthFull], by simp [exHealthFull],
      by simp [exHealthFull], by simp [exHealthFull], by simp [exHealthFull],
      by simp [exHealthFull], by simp [exHealthFull], ?_⟩
    intro p hp
    simp only [exHealthFull, List.mem_singleton] at hp
    subst hp
    refine ⟨by simp, ?_⟩
    intro d hd
    simp only [List.mem_singleton] at hd
    subst hd
    exact ⟨by simp [exEntry], by simp [exEntry],
      ⟨Json.num 1, rfl, fun hcon => Json.noConfusion hcon⟩,
      by simp [exEntry], by simp [exEntry], by simp [exEntry], by simp [exEntry]⟩
  have habs : exHealthAbsent.allOptionalAbsent :=
    ⟨rfl, rfl, rfl, rfl, rfl, rfl, rfl, rfl⟩
  exact ⟨C9_serialization_roundtrip.1 exHealthFull hpop,
    (C9_serialization_roundtrip.2 exHealthAbsent habs).1,
    (C9_serialization_roundtrip.2 exHealthAbsent habs).2⟩
